import Mathlib

/-!
Verification of the core of `github_contribution_generator.py`, the GitHub
contribution-graph image generator.

The program's core is shallowly embedded:

* grids (`contribution_matrix`, templates) are lists of rows of naturals,
  indexed `[day][week]`, with `cell` reading an entry exactly as numpy
  indexing does on the rectangular arrays the program builds;
* calendar dates are proleptic-Gregorian ordinal day numbers (`Int`), the
  same representation `datetime.date.toordinal` uses, so subtracting a
  `timedelta` of whole weeks or days is integer subtraction and
  `datetime.weekday()` is arithmetic modulo 7;
* a `datetime` value produced by the scheduler is a date plus an hour and a
  minute (the second and microsecond of every emitted timestamp equal those
  of the single `datetime.now()` call, so they never affect the calendar
  date or the relative ordering and are dropped);
* the quantizer's floating-point expression `(u / 255.0 * 4).astype(int)`
  is embedded as exact natural division `u * 4 / 255`: for integer
  `u ∈ [0, 255]` the rational value `4 * u / 255` is either exactly an
  integer (`u = 0`, `u = 255`) or at distance at least `1/255` from every
  integer, far beyond double rounding error, so the float floor and the
  exact floor coincide on every input the program can produce.
-/

/-- The constant `self.GITHUB_WEEKS` (line 77). -/
def GITHUB_WEEKS : Nat := 52

/-- The constant `self.GITHUB_DAYS` (line 78). -/
def GITHUB_DAYS : Nat := 7

/-- The constant `self.MAX_INTENSITY` (line 79). -/
def MAX_INTENSITY : Nat := 4

/-- Reading `matrix[d, w]` on a grid stored as a list of rows, with `0` for
out-of-range indices (the program only indexes in range; the default makes
`cell` total). -/
def cell (g : List (List Nat)) (d w : Nat) : Nat := (g.getD d []).getD w 0

/-- Python `datetime.weekday()` on an ordinal day number: Monday is 0 and
Sunday is 6; ordinal day 1 (0001-01-01) is a Monday. -/
def weekday (d : Int) : Int := (d - 1) % 7

/-- Lines 328-330: `days_since_sunday = start_date.weekday() + 1` followed by
`if days_since_sunday == 7: days_since_sunday = 0`. -/
def daysSinceSunday (d : Int) : Int :=
  if weekday d + 1 = 7 then 0 else weekday d + 1

/-- Lines 323-331 of `generate_commit_dates`: the start date (the spec's Epoch
Anchor) as an ordinal day number, computed from today's ordinal date and the
`weeks_ago` offset: 52 + offset weeks back, then back to the preceding
Sunday. -/
def anchorDate (today weeksAgo : Int) : Int :=
  let s := today - 7 * (52 + weeksAgo)
  s - daysSinceSunday s

/-- One timestamp appended to `commits` (the spec's ScheduledEvent): the
calendar date as an ordinal day number plus the hour and minute set by
`commit_date.replace(hour=hour, minute=minute)`. -/
structure ScheduledEvent where
  date : Int
  hour : Nat
  minute : Nat
deriving DecidableEq, Repr

/-- Lines 341-346: the `intensity` timestamps emitted for one cell whose
calendar date is `date`; repetition `k` (`commit_num`) gets
`hour = 9 + (k * 3) % 14` and `minute = (k * 17) % 60`. -/
def cellEvents (date : Int) (intensity : Nat) : List ScheduledEvent :=
  (List.range intensity).map fun k =>
    { date := date, hour := 9 + (k * 3) % 14, minute := (k * 17) % 60 }

/-- Lines 319-348, `generate_commit_dates(contribution_matrix, weeks_ago)`:
walk weeks 0..51 (outer loop) and days 0..6 (inner loop); a cell with
positive intensity contributes `cellEvents` at date `start + 7*week + day`,
a zero cell is skipped. -/
def generate_commit_dates (g : List (List Nat)) (today weeksAgo : Int) :
    List ScheduledEvent :=
  (List.range GITHUB_WEEKS).flatMap fun week =>
    (List.range GITHUB_DAYS).flatMap fun day =>
      if cell g day week > 0 then
        cellEvents (anchorDate today weeksAgo + 7 * (week : Int) + (day : Int))
          (cell g day week)
      else []

/-- The sum of all cell intensities over the 7 x 52 traversal
(`np.sum(contribution_matrix)` restricted to the grid the scheduler reads). -/
def gridSum (g : List (List Nat)) : Nat :=
  ((List.range GITHUB_WEEKS).map fun w =>
    ((List.range GITHUB_DAYS).map fun d => cell g d w).sum).sum

/-- Chronological key of an emitted timestamp, in minutes: the events of one
run all share the second and microsecond of the single `datetime.now()` call,
so comparing keys compares the timestamps. -/
def eventKey (e : ScheduledEvent) : Int :=
  e.date * 1440 + (e.hour : Int) * 60 + (e.minute : Int)

/-- Lines 360-363 of `push_to_github`: the run's decision after generating the
commit dates.  An empty sequence is reported to the caller with a message and
the run returns without creating commits (`noop`); otherwise the run proceeds
with `len(commit_dates)` write events.  No exception is raised either way. -/
inductive PushOutcome where
  | noop
  | proceed (n : Nat)
deriving DecidableEq, Repr

/-- The branch `if not commit_dates: ... return` of `push_to_github`
(lines 361-363), applied to the scheduler's output. -/
def push_decision (g : List (List Nat)) (today weeksAgo : Int) : PushOutcome :=
  let cds := generate_commit_dates g today weeksAgo
  if cds.isEmpty then .noop else .proceed cds.length

/-- The all-zero 7 x 52 IntensityGrid. -/
def zeroGrid : List (List Nat) :=
  List.replicate GITHUB_DAYS (List.replicate GITHUB_WEEKS 0)

/-- The 7 x 52 IntensityGrid whose only non-zero cell is (row 0, column 0)
with value 2 (the concrete scenario of the spec). -/
def singleCellGrid : List (List Nat) :=
  (2 :: List.replicate 51 0) :: List.replicate 6 (List.replicate 52 0)

/-- Width `shape[1]` of a grid stored as a list of rows (meaningful for the
rectangular arrays numpy builds). -/
def shape1 (p : List (List Nat)) : Nat := (p.headD []).length

/-- The grid is rectangular: every row has length `shape1 p`.  The numpy
arrays the program constructs are rectangular by construction. -/
abbrev Rectangular (p : List (List Nat)) : Prop := ∀ r ∈ p, r.length = shape1 p

/-- Lines 235-237 of `load_template`: if the pattern has fewer than 7 rows,
`np.pad(pattern, ((0, pad_height), (0, 0)))` appends rows of zeros of the
pattern's width at the bottom. -/
def padRows (p : List (List Nat)) : List (List Nat) :=
  if p.length < GITHUB_DAYS
  then p ++ List.replicate (GITHUB_DAYS - p.length) (List.replicate (shape1 p) 0)
  else p

/-- Lines 239-243 of `load_template`: if the pattern has fewer than 52
columns, `np.pad(pattern, ((0, 0), (0, pad_width)))` appends zeros on the
right of every row; if it has more, `pattern[:, :52]` truncates every row. -/
def fitCols (q : List (List Nat)) : List (List Nat) :=
  if shape1 q < GITHUB_WEEKS
  then q.map fun r => r ++ List.replicate (GITHUB_WEEKS - shape1 q) 0
  else if GITHUB_WEEKS < shape1 q then q.map fun r => r.take GITHUB_WEEKS
  else q

/-- Lines 232-245, `load_template` after the registry lookup: zero-pad rows
at the bottom to 7 if there are fewer, zero-pad columns on the right to 52 if
there are fewer or truncate columns past 52 if there are more, and finally
slice defensively with `pattern[:7, :52]`. -/
def load_template (p : List (List Nat)) : List (List Nat) :=
  ((fitCols (padRows p)).take GITHUB_DAYS).map fun r => r.take GITHUB_WEEKS

/-- Lines 264-267 applied to one resampled luminance value `v ∈ [0, 255]`:
invert (`255 - img_array`) and bucket (`(u / 255.0 * 4).astype(int)`),
embedded as the exact floor `u * 4 / 255` (see the file comment for why the
float floor agrees on every representable input). -/
def quantizeCell (v : Nat) : Nat := (255 - v) * 4 / 255

/-- Contract of `img.resize((self.GITHUB_WEEKS, self.GITHUB_DAYS),
Image.Resampling.LANCZOS)` (line 258), the single library call on the
non-template path.  The PIL implementation lives outside this repository, so
the quantizer is parameterized by any function satisfying the documented
contract of an interpolation resize: the result has exactly 7 rows of 52
columns, its values stay inside the 0-255 luminance range of the input, and
resampling a constant image yields the same constant (interpolation filters
compute normalized weighted averages of source pixels). -/
structure ResampleSpec (resample : List (List Nat) → List (List Nat)) : Prop where
  rows : ∀ g, (resample g).length = GITHUB_DAYS
  cols : ∀ g, ∀ r ∈ resample g, r.length = GITHUB_WEEKS
  bounded : ∀ g, (∀ r ∈ g, ∀ v ∈ r, v ≤ 255) →
    ∀ r ∈ resample g, ∀ v ∈ r, v ≤ 255
  constant : ∀ g c, g ≠ [] → (∀ r ∈ g, r ≠ [] ∧ ∀ v ∈ r, v = c) →
    ∀ r ∈ resample g, ∀ v ∈ r, v = c

/-- Lines 247-269, `load_and_process_image` on the non-template path (image
or text input): resize to 52 x 7, then invert and bucket every pixel. -/
def load_and_process_image (resample : List (List Nat) → List (List Nat))
    (g : List (List Nat)) : List (List Nat) :=
  (resample g).map fun r => r.map quantizeCell

/-- A concrete function satisfying `ResampleSpec` (it replicates the top-left
source pixel), used to instantiate the parameterized theorems at closed
inputs. -/
def sampleResample (g : List (List Nat)) : List (List Nat) :=
  List.replicate GITHUB_DAYS (List.replicate GITHUB_WEEKS ((g.headD []).headD 0))

/-- A template registry: the insertion-ordered mapping from template name to
2D integer-array pattern held in `self.templates` and serialized by
`json.dump`. -/
abbrev Registry := List (String × List (List Int))

/-- The built-in registry returned by `_load_templates` (lines 102-151). -/
def builtinTemplates : Registry :=
  [("skull",
    [[0,0,2,2,2,2,0,0],
     [0,2,4,2,2,4,2,0],
     [2,4,4,2,2,4,4,2],
     [2,2,2,4,4,2,2,2],
     [2,4,2,2,2,2,4,2],
     [0,2,4,4,4,4,2,0],
     [0,0,2,2,2,2,0,0]]),
   ("heart",
    [[0,2,2,0,2,2,0],
     [2,4,4,2,4,4,2],
     [4,4,4,4,4,4,4],
     [4,4,4,4,4,4,4],
     [2,4,4,4,4,4,2],
     [0,2,4,4,4,2,0],
     [0,0,2,2,2,0,0]]),
   ("smile",
    [[0,0,2,2,2,2,0,0],
     [0,2,0,2,2,0,2,0],
     [2,0,4,0,0,4,0,2],
     [2,0,0,0,0,0,0,2],
     [2,0,4,0,0,4,0,2],
     [2,0,0,4,4,0,0,2],
     [0,2,0,0,0,0,2,0],
     [0,0,2,2,2,2,0,0]]),
   ("diamond",
    [[0,0,0,2,0,0,0],
     [0,0,2,4,2,0,0],
     [0,2,4,4,4,2,0],
     [2,4,4,4,4,4,2],
     [0,2,4,4,4,2,0],
     [0,0,2,4,2,0,0],
     [0,0,0,2,0,0,0]]),
   ("checkmark",
    [[0,0,0,0,0,0,2],
     [0,0,0,0,0,2,4],
     [0,0,0,0,2,4,2],
     [2,0,0,2,4,2,0],
     [4,2,2,4,2,0,0],
     [2,4,4,2,0,0,0],
     [0,2,2,0,0,0,0]])]

/-- Python `dict.update(data)` on a registry stored as an insertion-ordered
association list: existing keys keep their position and take `upd`'s value
when `upd` has the key; keys new in `upd` are appended in order. -/
def dictUpdate (base upd : Registry) : Registry :=
  (base.map fun kv => (kv.1, (upd.lookup kv.1).getD kv.2))
    ++ upd.filter fun kv => (base.lookup kv.1).isNone

/-- Lines 506-516, `import_templates`, with the serialized document already
decoded back to a mapping (`json.load` of a `json.dump` of a string-keyed
mapping of integer arrays is exact): the imported mapping is merged over the
current registry by `self.templates.update(data)`. -/
def registryImportTemplates (reg data : Registry) : Registry := dictUpdate reg data

/-- Lines 518-524, `export_templates`: `json.dump(self.templates)` writes the
registry itself as the external document (the serialization is lossless for
this data shape, so the document is modelled by the registry it encodes). -/
def registryExportTemplates (reg : Registry) : Registry := reg

/-- The registries that can exist in a run of the program: the process starts
from the built-in registry (`self.templates = self._load_templates()`,
line 100) and the registry is mutated only by `import_templates` merges. -/
inductive ReachableRegistry : Registry → Prop where
  | builtin : ReachableRegistry builtinTemplates
  | importStep (r d : Registry) : ReachableRegistry r →
      ReachableRegistry (dictUpdate r d)

/-- A concrete 9-row by 60-column template (values in [0,4]) realizing the
spec's oversized-template scenario. -/
def template9x60 : List (List Nat) :=
  List.range 9 |>.map fun d => List.range 60 |>.map fun w => (d + w) % 5

/-- C3: the Epoch Anchor equals (today - (52 + offset) weeks) walked backward
to the most recent Sunday; a date already on Sunday is unchanged, and the
anchor is a Sunday at most 6 days before the offset date. -/
theorem C3_epoch_anchor (today weeksAgo : Int) :
    anchorDate today weeksAgo
        = (today - 7 * (52 + weeksAgo))
          - daysSinceSunday (today - 7 * (52 + weeksAgo)) ∧
      weekday (anchorDate today weeksAgo) = 6 ∧
      (today - 7 * (52 + weeksAgo)) - 6 ≤ anchorDate today weeksAgo ∧
      anchorDate today weeksAgo ≤ today - 7 * (52 + weeksAgo) ∧
      (weekday (today - 7 * (52 + weeksAgo)) = 6 →
        anchorDate today weeksAgo = today - 7 * (52 + weeksAgo)) := by
  unfold anchorDate daysSinceSunday weekday
  dsimp only
  refine ⟨rfl, ?_, ?_, ?_, ?_⟩ <;> split <;> omega

/-- Witness for C3 at a concrete input: today = ordinal 371 puts the offset
date on ordinal 7, a Sunday, and the anchor is that date itself. -/
theorem C3_epoch_anchor_witness :
    anchorDate 371 0 = 371 - 7 * (52 + 0) :=
  (C3_epoch_anchor 371 0).2.2.2.2 (by decide)

/-- The guard `if intensity > 0` in the scheduling loop is redundant: a zero
cell emits no events either way. -/
theorem if_cellEvents (a : Int) (n : Nat) :
    (if n > 0 then cellEvents a n else []) = cellEvents a n := by
  cases n <;> simp [cellEvents]

/-- The scheduler as a guard-free double `flatMap`. -/
theorem generate_commit_dates_eq (g : List (List Nat)) (today weeksAgo : Int) :
    generate_commit_dates g today weeksAgo
      = (List.range GITHUB_WEEKS).flatMap fun week =>
          (List.range GITHUB_DAYS).flatMap fun day =>
            cellEvents (anchorDate today weeksAgo + 7 * (week : Int) + (day : Int))
              (cell g day week) := by
  simp only [generate_commit_dates, if_cellEvents]

theorem cellEvents_length (a : Int) (n : Nat) : (cellEvents a n).length = n := by
  simp [cellEvents]

theorem mem_cellEvents {x : ScheduledEvent} {a : Int} {n : Nat} :
    x ∈ cellEvents a n ↔ ∃ k, k < n ∧
      x = ⟨a, 9 + (k * 3) % 14, (k * 17) % 60⟩ := by
  simp only [cellEvents, List.mem_map, List.mem_range]
  constructor
  · rintro ⟨k, hk, rfl⟩; exact ⟨k, hk, rfl⟩
  · rintro ⟨k, hk, rfl⟩; exact ⟨k, hk, rfl⟩

/-- Every event of a cell carries the cell's date, and its time-of-day is
inside the 9:00-22:59 window. -/
theorem cellEvents_bounds {x : ScheduledEvent} {a : Int} {n : Nat}
    (hx : x ∈ cellEvents a n) : x.date = a ∧ x.hour ≤ 22 ∧ x.minute ≤ 59 := by
  rcases mem_cellEvents.mp hx with ⟨k, _, rfl⟩
  refine ⟨rfl, ?_, ?_⟩
  · have : (k * 3) % 14 < 14 := Nat.mod_lt _ (by norm_num)
    simp only []
    omega
  · have : (k * 17) % 60 < 60 := Nat.mod_lt _ (by norm_num)
    simp only []
    omega

/-- Filtering a cell's events by date keeps everything or nothing. -/
theorem filter_cellEvents (a D : Int) (n : Nat) :
    (cellEvents a n).filter (fun e => decide (e.date = D))
      = if a = D then cellEvents a n else [] := by
  by_cases h : a = D
  · subst h
    rw [if_pos rfl]
    apply List.filter_eq_self.mpr
    intro x hx
    simp [(cellEvents_bounds hx).1]
  · rw [if_neg h]
    apply List.filter_eq_nil_iff.mpr
    intro x hx
    simp [(cellEvents_bounds hx).1, h]

/-- A `flatMap` over `range n` in which only index `i` contributes collapses
to that contribution. -/
theorem flatMap_range_single {α : Type} (f : Nat → List α) (n i : Nat)
    (hi : i < n) (h0 : ∀ j, j < n → j ≠ i → f j = []) :
    (List.range n).flatMap f = f i := by
  induction n with
  | zero => omega
  | succ m ih =>
    rw [List.range_succ, List.flatMap_append]
    by_cases h : i = m
    · subst h
      have hnil : (List.range i).flatMap f = [] := by
        apply List.flatMap_eq_nil_iff.mpr
        intro x hx
        rw [List.mem_range] at hx
        exact h0 x (by omega) (by omega)
      simp [hnil]
    · have hm : f m = [] := h0 m (by omega) (by omega)
      rw [ih (by omega) (fun j hj hne => h0 j (by omega) hne)]
      simp [hm]

/-- A doubly nested `flatMap` over ranges in which only the pair `(i, j)`
contributes collapses to that contribution. -/
theorem flatMap2_range_single {α : Type} (F : Nat → Nat → List α)
    (n m i j : Nat) (hi : i < n) (hj : j < m)
    (h0 : ∀ a b, a < n → b < m → ¬(a = i ∧ b = j) → F a b = []) :
    ((List.range n).flatMap fun a => (List.range m).flatMap fun b => F a b)
      = F i j := by
  have houter : ∀ a, a < n → a ≠ i →
      ((List.range m).flatMap fun b => F a b) = [] := by
    intro a ha hne
    apply List.flatMap_eq_nil_iff.mpr
    intro b hb
    rw [List.mem_range] at hb
    exact h0 a b ha hb (by tauto)
  rw [flatMap_range_single (fun a => (List.range m).flatMap fun b => F a b)
    n i hi houter]
  exact flatMap_range_single (fun b => F i b) m j hj
    (fun b hb hne => h0 i b hi hb (by tauto))

/-- The events that carry the date of cell `(d, w)` are exactly that cell's
`cellEvents`. -/
theorem generate_filter_cell (g : List (List Nat)) (today weeksAgo : Int)
    (d w : Nat) (hd : d < GITHUB_DAYS) (hw : w < GITHUB_WEEKS) :
    (generate_commit_dates g today weeksAgo).filter
        (fun e => decide (e.date = anchorDate today weeksAgo + 7 * (w : Int) + (d : Int)))
      = cellEvents (anchorDate today weeksAgo + 7 * (w : Int) + (d : Int))
          (cell g d w) := by
  have hd7 : d < 7 := hd
  have hw52 : w < 52 := hw
  rw [generate_commit_dates_eq]
  simp only [List.filter_flatMap, filter_cellEvents]
  have h2 := flatMap2_range_single
    (fun a b =>
      if anchorDate today weeksAgo + 7 * (a : Int) + (b : Int)
          = anchorDate today weeksAgo + 7 * (w : Int) + (d : Int) then
        cellEvents (anchorDate today weeksAgo + 7 * (a : Int) + (b : Int))
          (cell g b a)
      else [])
    GITHUB_WEEKS GITHUB_DAYS w d hw hd ?_
  · rw [h2]
    dsimp only
    rw [if_pos rfl]
  · intro a b ha hb hne
    have hb7 : b < 7 := hb
    dsimp only
    rw [if_neg]
    intro hEq
    exact hne (by constructor <;> omega)

/-- C1: the scheduler emits, for each cell, exactly as many events as the
cell's intensity (all of them dated `anchor + w weeks + d days`, so that the
events carrying a given cell's date number exactly the cell's intensity), and
the total number of emitted events is the sum of all cell intensities. -/
theorem C1_event_counts (g : List (List Nat)) (today weeksAgo : Int) :
    (generate_commit_dates g today weeksAgo).length = gridSum g ∧
    ∀ d w, d < GITHUB_DAYS → w < GITHUB_WEEKS →
      ((generate_commit_dates g today weeksAgo).filter
          (fun e => decide
            (e.date = anchorDate today weeksAgo + 7 * (w : Int) + (d : Int)))).length
        = cell g d w := by
  constructor
  · rw [generate_commit_dates_eq]
    simp [List.length_flatMap, Function.comp_def, cellEvents_length, gridSum]
  · intro d w hd hw
    rw [generate_filter_cell g today weeksAgo d w hd hw, cellEvents_length]

/-- Witness for C1 at a concrete grid, date and cell. -/
theorem C1_event_counts_witness :
    ((generate_commit_dates singleCellGrid 1000 0).filter
        (fun e => decide
          (e.date = anchorDate 1000 0 + 7 * ((0 : Nat) : Int) + ((0 : Nat) : Int)))).length
      = cell singleCellGrid 0 0 :=
  (C1_event_counts singleCellGrid 1000 0).2 0 0 (by decide) (by decide)

/-- Reading a replicated list at any index with any default. -/
theorem getD_replicate {α : Type} (n j : Nat) (a b : α) :
    (List.replicate n a).getD j b = if j < n then a else b := by
  rw [List.getD_eq_getElem?_getD, List.getElem?_replicate]
  split <;> rfl

/-- Every cell of `singleCellGrid` other than `(0, 0)` is zero. -/
theorem cell_singleCellGrid (d j : Nat) (h : ¬(d = 0 ∧ j = 0)) :
    cell singleCellGrid d j = 0 := by
  unfold cell singleCellGrid
  match d, j with
  | 0, 0 => exact absurd ⟨rfl, rfl⟩ h
  | 0, j + 1 =>
    rw [List.getD_cons_zero, List.getD_cons_succ, getD_replicate]
    split <;> rfl
  | d + 1, j =>
    rw [List.getD_cons_succ, getD_replicate]
    split
    · rw [getD_replicate]
      split <;> rfl
    · rfl

/-- The scheduler's output for `singleCellGrid` is the two-event cluster of
cell `(0, 0)`, dated on the Epoch Anchor itself. -/
theorem generate_singleCellGrid (today weeksAgo : Int) :
    generate_commit_dates singleCellGrid today weeksAgo
      = cellEvents (anchorDate today weeksAgo) 2 := by
  rw [generate_commit_dates_eq]
  have h2 := flatMap2_range_single
    (fun a b =>
      cellEvents (anchorDate today weeksAgo + 7 * (a : Int) + (b : Int))
        (cell singleCellGrid b a))
    GITHUB_WEEKS GITHUB_DAYS 0 0 (by decide) (by decide) ?_
  · rw [h2]
    dsimp only
    rw [show cell singleCellGrid 0 0 = 2 from rfl]
    norm_num
  · intro a b _ _ hne
    dsimp only
    rw [cell_singleCellGrid b a (by tauto)]
    simp [cellEvents]

/-- C2: for every non-zero cell the `k`-th emitted event of that cell has
hour `9 + (3*k) % 14` and minute `(17*k) % 60` on the cell's calendar date;
in particular `singleCellGrid` yields exactly the two events (hour 9,
minute 0) and (hour 12, minute 17) on the Epoch Anchor's date. -/
theorem C2_time_of_day (g : List (List Nat)) (today weeksAgo : Int) :
    (∀ d w, d < GITHUB_DAYS → w < GITHUB_WEEKS →
      (generate_commit_dates g today weeksAgo).filter
          (fun e => decide
            (e.date = anchorDate today weeksAgo + 7 * (w : Int) + (d : Int)))
        = (List.range (cell g d w)).map fun k =>
            ⟨anchorDate today weeksAgo + 7 * (w : Int) + (d : Int),
              9 + (3 * k) % 14, (17 * k) % 60⟩) ∧
    generate_commit_dates singleCellGrid today 0
      = [⟨anchorDate today 0, 9, 0⟩, ⟨anchorDate today 0, 12, 17⟩] := by
  constructor
  · intro d w hd hw
    rw [generate_filter_cell g today weeksAgo d w hd hw]
    unfold cellEvents
    apply List.map_congr_left
    intro k _
    rw [Nat.mul_comm k 3, Nat.mul_comm k 17]
  · rw [generate_singleCellGrid today 0]
    simp [cellEvents, List.range_succ]

/-- Witness for C2 at a concrete grid, date and cell. -/
theorem C2_time_of_day_witness :
    (generate_commit_dates singleCellGrid 1000 0).filter
        (fun e => decide
          (e.date = anchorDate 1000 0 + 7 * ((0 : Nat) : Int) + ((0 : Nat) : Int)))
      = (List.range (cell singleCellGrid 0 0)).map (fun k =>
          ⟨anchorDate 1000 0 + 7 * ((0 : Nat) : Int) + ((0 : Nat) : Int),
            9 + (3 * k) % 14, (17 * k) % 60⟩) :=
  (C2_time_of_day singleCellGrid 1000 0).1 0 0 (by decide) (by decide)

/-- The intra-day spreading formula is strictly increasing in the repetition
index as long as the index stays below the maximum intensity. -/
theorem spread_strict_mono :
    ∀ k2, k2 < 4 → ∀ k1, k1 < k2 →
      (9 + (k1 * 3) % 14) * 60 + (k1 * 17) % 60
        < (9 + (k2 * 3) % 14) * 60 + (k2 * 17) % 60 := by decide

/-- A cell of intensity at most the maximum emits its events in
non-decreasing chronological order. -/
theorem cellEvents_pairwise (a : Int) (n : Nat) (hn : n ≤ MAX_INTENSITY) :
    List.Pairwise (fun x y => eventKey x ≤ eventKey y) (cellEvents a n) := by
  have hn4 : n ≤ 4 := hn
  unfold cellEvents
  rw [List.pairwise_iff_getElem]
  intro i j hi hj hij
  simp only [List.getElem_map, List.getElem_range]
  simp only [List.length_map, List.length_range] at hi hj
  have hstep := spread_strict_mono j (by omega) i hij
  unfold eventKey
  simp only []
  omega

/-- An event whose date is strictly earlier than another event's date is
chronologically no later, provided its time-of-day is inside a single day. -/
theorem eventKey_le_of_date_lt {x y : ScheduledEvent}
    (hh : x.hour ≤ 22) (hm : x.minute ≤ 59) (hdate : x.date < y.date) :
    eventKey x ≤ eventKey y := by
  unfold eventKey
  omega

/-- C4: for a grid whose cells are intensities in [0, 4], the scheduler's
output is chronologically non-decreasing in its traversal order, with no
reordering step. -/
theorem C4_chronological (g : List (List Nat)) (today weeksAgo : Int)
    (h4 : ∀ d, d < GITHUB_DAYS → ∀ w, w < GITHUB_WEEKS →
      cell g d w ≤ MAX_INTENSITY) :
    List.Pairwise (fun x y => eventKey x ≤ eventKey y)
      (generate_commit_dates g today weeksAgo) := by
  rw [generate_commit_dates_eq]
  rw [List.pairwise_flatMap]
  constructor
  · intro w hw
    rw [List.mem_range] at hw
    rw [List.pairwise_flatMap]
    constructor
    · intro d hd
      rw [List.mem_range] at hd
      exact cellEvents_pairwise _ _ (h4 d hd w hw)
    · apply (List.pairwise_lt_range GITHUB_DAYS).imp
      intro d1 d2 hlt x hx y hy
      obtain ⟨hxd, hxh, hxm⟩ := cellEvents_bounds hx
      have hyd := (cellEvents_bounds hy).1
      apply eventKey_le_of_date_lt hxh hxm
      rw [hxd, hyd]
      omega
  · apply (List.pairwise_lt_range GITHUB_WEEKS).imp
    intro w1 w2 hlt x hx y hy
    rw [List.mem_flatMap] at hx hy
    obtain ⟨d1, hd1, hx⟩ := hx
    obtain ⟨d2, _, hy⟩ := hy
    rw [List.mem_range] at hd1
    have hd17 : d1 < 7 := hd1
    obtain ⟨hxd, hxh, hxm⟩ := cellEvents_bounds hx
    have hyd := (cellEvents_bounds hy).1
    apply eventKey_le_of_date_lt hxh hxm
    rw [hxd, hyd]
    omega

/-- Witness for C4 at a concrete grid and date. -/
theorem C4_chronological_witness :
    List.Pairwise (fun x y => eventKey x ≤ eventKey y)
      (generate_commit_dates singleCellGrid 1000 0) :=
  C4_chronological singleCellGrid 1000 0 (by decide)

/-- C8: an all-zero grid schedules no events, and the push path reports this
as a no-op to the caller and returns without creating commits, rather than
failing. -/
theorem C8_empty_noop (g : List (List Nat)) (today weeksAgo : Int)
    (h0 : ∀ d, d < GITHUB_DAYS → ∀ w, w < GITHUB_WEEKS → cell g d w = 0) :
    generate_commit_dates g today weeksAgo = [] ∧
    push_decision g today weeksAgo = PushOutcome.noop := by
  have hempty : generate_commit_dates g today weeksAgo = [] := by
    unfold generate_commit_dates
    apply List.flatMap_eq_nil_iff.mpr
    intro w hw
    rw [List.mem_range] at hw
    apply List.flatMap_eq_nil_iff.mpr
    intro d hd
    rw [List.mem_range] at hd
    rw [h0 d hd w hw]
    simp
  refine ⟨hempty, ?_⟩
  unfold push_decision
  rw [hempty]
  rfl

/-- Witness for C8 at the concrete all-zero grid. -/
theorem C8_empty_noop_witness :
    generate_commit_dates zeroGrid 1000 0 = [] ∧
    push_decision zeroGrid 1000 0 = PushOutcome.noop :=
  C8_empty_noop zeroGrid 1000 0 (by decide)

/-- Taking a prefix does not change entries before the cut. -/
theorem getD_take {α : Type} (r : List α) (w k : Nat) (hw : w < k) (a : α) :
    (r.take k).getD w a = r.getD w a := by
  rw [List.getD_eq_getElem?_getD, List.getD_eq_getElem?_getD, List.getElem?_take,
    if_pos hw]

/-- Row padding does not change the width of the grid. -/
theorem shape1_padRows (p : List (List Nat)) : shape1 (padRows p) = shape1 p := by
  unfold padRows
  split
  · cases p with
    | nil => rfl
    | cons r t => rfl
  · rfl

theorem padRows_length (p : List (List Nat)) :
    (padRows p).length = max GITHUB_DAYS p.length := by
  have hD : GITHUB_DAYS = 7 := rfl
  unfold padRows
  split
  · rename_i hlen
    have hlen7 : p.length < 7 := hlen
    rw [List.length_append, List.length_replicate, hD]
    omega
  · rename_i hlen
    have hlen7 : ¬ p.length < 7 := hlen
    rw [hD]
    omega

theorem padRows_rect (p : List (List Nat)) (h : Rectangular p) :
    ∀ r ∈ padRows p, r.length = shape1 p := by
  intro r hr
  unfold padRows at hr
  split at hr
  · rw [List.mem_append] at hr
    rcases hr with hr | hr
    · exact h r hr
    · rw [List.eq_of_mem_replicate hr, List.length_replicate]
  · exact h r hr

theorem padRows_getElem (p : List (List Nat)) (d : Nat) (hd : d < GITHUB_DAYS) :
    (padRows p)[d]? = if d < p.length then p[d]?
      else some (List.replicate (shape1 p) 0) := by
  have hd7 : d < 7 := hd
  unfold padRows
  split
  · rename_i hlen
    have hlen7 : p.length < 7 := hlen
    rw [List.getElem?_append]
    by_cases hdl : d < p.length
    · rw [if_pos hdl, if_pos hdl]
    · rw [if_neg hdl, if_neg hdl, List.getElem?_replicate, if_pos (by omega)]
  · rename_i hlen
    have hlen7 : ¬ p.length < 7 := hlen
    rw [if_pos (by omega)]

theorem fitCols_length (q : List (List Nat)) : (fitCols q).length = q.length := by
  unfold fitCols
  split
  · rw [List.length_map]
  · split
    · rw [List.length_map]
    · rfl

theorem fitCols_rows (q : List (List Nat)) (hq : ∀ r ∈ q, r.length = shape1 q) :
    ∀ r ∈ fitCols q, r.length = GITHUB_WEEKS := by
  have hW : GITHUB_WEEKS = 52 := rfl
  intro r hr
  unfold fitCols at hr
  split at hr
  · rename_i hc
    have hc52 : shape1 q < 52 := hc
    rw [List.mem_map] at hr
    obtain ⟨r1, hr1, rfl⟩ := hr
    rw [List.length_append, List.length_replicate, hq r1 hr1, hW]
    omega
  · rename_i hc
    have hc1 : ¬ shape1 q < 52 := hc
    split at hr
    · rename_i hc2
      have hc52 : 52 < shape1 q := hc2
      rw [List.mem_map] at hr
      obtain ⟨r1, hr1, rfl⟩ := hr
      rw [List.length_take, hq r1 hr1, hW]
      omega
    · rename_i hc2
      have hc2' : ¬ (52 : Nat) < shape1 q := hc2
      rw [hq r hr, hW]
      omega

/-- Reading an entry of a zero-padded or truncated row before column 52. -/
theorem getD_append_replicate_zero (r1 : List Nat) (k w : Nat)
    (hw : w < r1.length + k) :
    (r1 ++ List.replicate k 0).getD w 0
      = if w < r1.length then r1.getD w 0 else 0 := by
  rw [List.getD_eq_getElem?_getD, List.getElem?_append]
  by_cases h : w < r1.length
  · rw [if_pos h, if_pos h, List.getD_eq_getElem?_getD]
  · rw [if_neg h, if_neg h, List.getElem?_replicate, if_pos (by omega)]
    rfl

/-- Reading a cell of the column-fitted grid in terms of the original grid. -/
theorem fitCols_cell (q : List (List Nat)) (hq : ∀ r ∈ q, r.length = shape1 q)
    (d w : Nat) (hw : w < GITHUB_WEEKS) :
    (((fitCols q)[d]?).getD []).getD w 0
      = if w < shape1 q then ((q[d]?).getD []).getD w 0 else 0 := by
  have hw52 : w < 52 := hw
  unfold fitCols
  split
  · rename_i hc
    have hc52 : shape1 q < 52 := hc
    rw [List.getElem?_map]
    cases hrow : q[d]? with
    | none =>
      simp only [Option.map_none', Option.getD_none, List.getD_nil]
      split <;> rfl
    | some r1 =>
      have hlen : r1.length = shape1 q := hq r1 (List.getElem?_mem hrow)
      simp only [Option.map_some', Option.getD_some]
      rw [getD_append_replicate_zero r1 _ w (by rw [hlen]; have : GITHUB_WEEKS = 52 := rfl; omega), hlen]
  · rename_i hc
    have hc1 : ¬ shape1 q < 52 := hc
    split
    · rename_i hc2
      have hc52 : 52 < shape1 q := hc2
      rw [List.getElem?_map]
      cases hrow : q[d]? with
      | none =>
        simp only [Option.map_none', Option.getD_none, List.getD_nil]
        split <;> rfl
      | some r1 =>
        simp only [Option.map_some', Option.getD_some]
        rw [getD_take r1 w GITHUB_WEEKS hw, if_pos (by omega)]
    · rename_i hc2
      have hc2' : ¬ (52 : Nat) < shape1 q := hc2
      rw [if_pos (by omega)]

theorem load_template_length (p : List (List Nat)) :
    (load_template p).length = GITHUB_DAYS := by
  have hD : GITHUB_DAYS = 7 := rfl
  unfold load_template
  rw [List.length_map, List.length_take, fitCols_length, padRows_length, hD]
  omega

theorem load_template_rows (p : List (List Nat)) (hrect : Rectangular p) :
    ∀ r ∈ load_template p, r.length = GITHUB_WEEKS := by
  intro r hr
  unfold load_template at hr
  rw [List.mem_map] at hr
  obtain ⟨r2, hr2, rfl⟩ := hr
  have hq : ∀ r' ∈ padRows p, r'.length = shape1 (padRows p) := by
    intro r' hr'
    rw [shape1_padRows]
    exact padRows_rect p hrect r' hr'
  have h52 := fitCols_rows (padRows p) hq r2 (List.mem_of_mem_take hr2)
  rw [List.length_take, h52, Nat.min_self]

/-- Reading a cell of the final `[:7, :52]` slice in terms of the sliced
grid. -/
theorem getD_map_take (L : List (List Nat)) (d w : Nat) (hd : d < GITHUB_DAYS)
    (hw : w < GITHUB_WEEKS) :
    ((List.map (fun r => List.take GITHUB_WEEKS r)
        (List.take GITHUB_DAYS L)).getD d []).getD w 0
      = ((L[d]?).getD []).getD w 0 := by
  have h1 : (List.map (fun r => List.take GITHUB_WEEKS r)
      (List.take GITHUB_DAYS L))[d]?
      = (L[d]?).map fun r => List.take GITHUB_WEEKS r := by
    rw [List.getElem?_map, List.getElem?_take, if_pos hd]
  rw [List.getD_eq_getElem?_getD (List.map (fun r => List.take GITHUB_WEEKS r)
    (List.take GITHUB_DAYS L)) d [], h1]
  cases o : L[d]? with
  | none => rfl
  | some r2 =>
    simp only [Option.map_some', Option.getD_some]
    exact getD_take r2 w GITHUB_WEEKS hw 0

/-- The quantized template reads back the original template inside its
bounds and zero outside them. -/
theorem load_template_cell (p : List (List Nat)) (hrect : Rectangular p)
    (d w : Nat) (hd : d < GITHUB_DAYS) (hw : w < GITHUB_WEEKS) :
    cell (load_template p) d w
      = if d < p.length ∧ w < shape1 p then cell p d w else 0 := by
  unfold load_template cell
  have hq : ∀ r' ∈ padRows p, r'.length = shape1 (padRows p) := by
    intro r' hr'
    rw [shape1_padRows]
    exact padRows_rect p hrect r' hr'
  rw [getD_map_take (fitCols (padRows p)) d w hd hw,
    fitCols_cell (padRows p) hq d w hw, shape1_padRows,
    padRows_getElem p d hd]
  by_cases hdp : d < p.length
  · rw [if_pos hdp, List.getD_eq_getElem?_getD p d []]
    by_cases hwc : w < shape1 p
    · rw [if_pos hwc, if_pos ⟨hdp, hwc⟩]
    · rw [if_neg hwc, if_neg (by tauto)]
  · rw [if_neg hdp, if_neg (show ¬(d < p.length ∧ w < shape1 p) from by tauto)]
    by_cases hwc : w < shape1 p
    · rw [if_pos hwc]
      simp only [Option.getD_some]
      rw [getD_replicate]
      split <;> rfl
    · rw [if_neg hwc]

/-- The sample resize function satisfies the resize contract. -/
theorem sampleResample_spec : ResampleSpec sampleResample := by
  constructor
  · intro g
    simp [sampleResample]
  · intro g r hr
    rw [List.eq_of_mem_replicate hr, List.length_replicate]
  · intro g hb r hr v hv
    rw [List.eq_of_mem_replicate hr] at hv
    rw [List.eq_of_mem_replicate hv]
    cases g with
    | nil => decide
    | cons r0 t =>
      cases r0 with
      | nil => exact Nat.zero_le 255
      | cons v0 vs =>
        exact hb (v0 :: vs) (List.mem_cons_self _ _) v0 (List.mem_cons_self _ _)
  · intro g c hne hconst r hr v hv
    rw [List.eq_of_mem_replicate hr] at hv
    rw [List.eq_of_mem_replicate hv]
    cases g with
    | nil => exact absurd rfl hne
    | cons r0 t =>
      obtain ⟨hr0ne, hr0c⟩ := hconst r0 (List.mem_cons_self _ _)
      cases r0 with
      | nil => exact absurd rfl hr0ne
      | cons v0 vs => exact hr0c v0 (List.mem_cons_self _ _)

/-- C5: on both quantization paths the output grid has exactly 7 rows of 52
columns, for every input shape. -/
theorem C5_output_shape (p : List (List Nat)) (hrect : Rectangular p)
    (resample : List (List Nat) → List (List Nat)) (hrs : ResampleSpec resample)
    (g : List (List Nat)) :
    ((load_template p).length = GITHUB_DAYS ∧
      ∀ r ∈ load_template p, r.length = GITHUB_WEEKS) ∧
    ((load_and_process_image resample g).length = GITHUB_DAYS ∧
      ∀ r ∈ load_and_process_image resample g, r.length = GITHUB_WEEKS) := by
  refine ⟨⟨load_template_length p, load_template_rows p hrect⟩, ?_, ?_⟩
  · unfold load_and_process_image
    rw [List.length_map, hrs.rows]
  · intro r hr
    unfold load_and_process_image at hr
    rw [List.mem_map] at hr
    obtain ⟨r1, hr1, rfl⟩ := hr
    rw [List.length_map]
    exact hrs.cols g r1 hr1

/-- Witness for C5 at a concrete oversized template and a concrete resize. -/
theorem C5_output_shape_witness :
    (load_template template9x60).length = GITHUB_DAYS :=
  (C5_output_shape template9x60 (by decide) sampleResample sampleResample_spec
    []).1.1

/-- C6: on the non-template path every output cell is an intensity in [0, 4];
an all-white input quantizes to the all-zero grid and an all-black input to
the all-4 grid. -/
theorem C6_nonTemplate_range (resample : List (List Nat) → List (List Nat))
    (hrs : ResampleSpec resample) (g : List (List Nat))
    (hg : ∀ r ∈ g, ∀ v ∈ r, v ≤ 255) :
    (∀ r ∈ load_and_process_image resample g, ∀ v ∈ r, v ≤ MAX_INTENSITY) ∧
    ((g ≠ [] ∧ ∀ r ∈ g, r ≠ [] ∧ ∀ v ∈ r, v = 255) →
      ∀ r ∈ load_and_process_image resample g, ∀ v ∈ r, v = 0) ∧
    ((g ≠ [] ∧ ∀ r ∈ g, r ≠ [] ∧ ∀ v ∈ r, v = 0) →
      ∀ r ∈ load_and_process_image resample g, ∀ v ∈ r, v = MAX_INTENSITY) := by
  have hM : MAX_INTENSITY = 4 := rfl
  refine ⟨?_, ?_, ?_⟩
  · intro r hr v hv
    unfold load_and_process_image at hr
    rw [List.mem_map] at hr
    obtain ⟨r1, hr1, rfl⟩ := hr
    rw [List.mem_map] at hv
    obtain ⟨u, hu, rfl⟩ := hv
    have hub : u ≤ 255 := hrs.bounded g hg r1 hr1 u hu
    unfold quantizeCell
    rw [hM]
    omega
  · rintro ⟨hne, hwhite⟩ r hr v hv
    unfold load_and_process_image at hr
    rw [List.mem_map] at hr
    obtain ⟨r1, hr1, rfl⟩ := hr
    rw [List.mem_map] at hv
    obtain ⟨u, hu, rfl⟩ := hv
    rw [hrs.constant g 255 hne hwhite r1 hr1 u hu]
    rfl
  · rintro ⟨hne, hblack⟩ r hr v hv
    unfold load_and_process_image at hr
    rw [List.mem_map] at hr
    obtain ⟨r1, hr1, rfl⟩ := hr
    rw [List.mem_map] at hv
    obtain ⟨u, hu, rfl⟩ := hv
    rw [hrs.constant g 0 hne hblack r1 hr1 u hu]
    rfl

/-- Witness for C6 at a concrete resize and all-white input. -/
theorem C6_nonTemplate_range_witness : (0 : Nat) ≤ MAX_INTENSITY :=
  (C6_nonTemplate_range sampleResample sampleResample_spec [[255]]
    (by decide)).1 (List.replicate 52 0) (by decide) 0 (by decide)

/-- C7: on the template path the output cell equals the template cell inside
the template's bounds and 0 where padded; combined with the 7 x 52 output
shape this discards input rows past 6 and columns past 51, never rescaling a
value. -/
theorem C7_template_values (p : List (List Nat)) (hrect : Rectangular p) :
    ((load_template p).length = GITHUB_DAYS ∧
      ∀ r ∈ load_template p, r.length = GITHUB_WEEKS) ∧
    ∀ d w, d < GITHUB_DAYS → w < GITHUB_WEEKS →
      cell (load_template p) d w
        = if d < p.length ∧ w < shape1 p then cell p d w else 0 :=
  ⟨⟨load_template_length p, load_template_rows p hrect⟩,
   fun d w hd hw => load_template_cell p hrect d w hd hw⟩

/-- Witness for C7 at the concrete 9 x 60 template. -/
theorem C7_template_values_witness :
    cell (load_template template9x60) 3 5
      = if 3 < template9x60.length ∧ 5 < shape1 template9x60
        then cell template9x60 3 5 else 0 :=
  (C7_template_values template9x60 (by decide)).2 3 5 (by decide) (by decide)

set_option maxRecDepth 4000 in
/-- C10: the non-template bucketing reaches intensity 4 exactly on resampled
value 0; every value of at least 1 maps to at most 3; the five buckets cover
64, 64, 64, 63 and 1 of the 256 luminance values respectively. -/
theorem C10_top_bucket :
    (∀ v, v ≤ 255 → (quantizeCell v = MAX_INTENSITY ↔ v = 0)) ∧
    (∀ v, v ≤ 255 → 1 ≤ v → quantizeCell v ≤ 3) ∧
    ((List.range 5).map fun i =>
        ((List.range 256).filter fun u => decide (quantizeCell u = i)).length)
      = [64, 64, 64, 63, 1] := by
  refine ⟨by decide, by decide, by decide⟩

/-- Witness for C10 at the concrete value 0. -/
theorem C10_top_bucket_witness : quantizeCell 0 = MAX_INTENSITY :=
  (C10_top_bucket.1 0 (by decide)).mpr rfl

/-- Looking up a key among the overwritten entries of the base registry. -/
theorem lookup_map_base (b u : Registry) (k : String) :
    (b.map fun kv => (kv.1, (u.lookup kv.1).getD kv.2)).lookup k
      = (b.lookup k).map fun v => (u.lookup k).getD v := by
  induction b with
  | nil => rfl
  | cons kv t ih =>
    obtain ⟨k', v'⟩ := kv
    by_cases h : k' = k
    · subst h
      simp [List.lookup]
    · have hbeq : (k == k') = false := beq_eq_false_iff_ne.mpr (Ne.symm h)
      simp [List.lookup, hbeq, ih]

/-- Looking up a key among the appended new entries when the base registry
does not have it. -/
theorem lookup_filter_new (b u : Registry) (k : String)
    (hb : b.lookup k = none) :
    (u.filter fun kv => (b.lookup kv.1).isNone).lookup k = u.lookup k := by
  induction u with
  | nil => rfl
  | cons kv t ih =>
    obtain ⟨k'', v''⟩ := kv
    by_cases h : k'' = k
    · subst h
      have hcond : (b.lookup k'').isNone = true := by rw [hb]; rfl
      simp [List.filter_cons, hcond, List.lookup]
    · have hbeq : (k == k'') = false := beq_eq_false_iff_ne.mpr (Ne.symm h)
      by_cases hcond : (b.lookup k'').isNone = true
      · simp [List.filter_cons, hcond, List.lookup, hbeq, ih]
      · have hcond2 : (b.lookup k'').isNone = false := by
          cases hx : (b.lookup k'').isNone
          · rfl
          · exact absurd hx hcond
        simp [List.filter_cons, hcond2, List.lookup, hbeq, ih]

/-- `dict.update` has the expected mapping semantics: the updated value when
the update has the key, otherwise the base value. -/
theorem lookup_dictUpdate (b u : Registry) (k : String) :
    (dictUpdate b u).lookup k = (u.lookup k).or (b.lookup k) := by
  unfold dictUpdate
  rw [List.lookup_append, lookup_map_base]
  cases hb : b.lookup k with
  | some v =>
    simp only [Option.map_some']
    cases hu : u.lookup k with
    | some uv => rfl
    | none => rfl
  | none =>
    simp only [Option.map_none']
    rw [lookup_filter_new b u k hb]
    cases hu : u.lookup k with
    | some uv => rfl
    | none => rfl

/-- Every registry reachable in a run still has every built-in name (imports
only overwrite or add keys, never remove them). -/
theorem reachable_lookup_isSome {R : Registry} (h : ReachableRegistry R)
    (k : String) (hk : (builtinTemplates.lookup k).isSome) :
    (R.lookup k).isSome := by
  induction h with
  | builtin => exact hk
  | importStep r d hr ih =>
    rw [lookup_dictUpdate, Option.isSome_or, ih]
    simp

/-- C9: exporting any registry that can exist in a run and importing the
exported document into a fresh registry (built-ins plus the merge) restores
exactly the same name-to-pattern mapping. -/
theorem C9_registry_roundtrip (R : Registry) (h : ReachableRegistry R) :
    ∀ k, (registryImportTemplates builtinTemplates
        (registryExportTemplates R)).lookup k = R.lookup k := by
  intro k
  unfold registryImportTemplates registryExportTemplates
  rw [lookup_dictUpdate]
  cases hR : R.lookup k with
  | some v => rfl
  | none =>
    cases hB : builtinTemplates.lookup k with
    | none => rfl
    | some v =>
      have hs := reachable_lookup_isSome h k (by rw [hB]; rfl)
      rw [hR] at hs
      exact absurd hs (by simp)

/-- Witness for C9 at the built-in registry and a concrete name. -/
theorem C9_registry_roundtrip_witness :
    (registryImportTemplates builtinTemplates
        (registryExportTemplates builtinTemplates)).lookup "skull"
      = builtinTemplates.lookup "skull" :=
  C9_registry_roundtrip builtinTemplates ReachableRegistry.builtin "skull"
